import Mathlib

/-!
Shallow embedding of `src/lib.rs` of the `async_dsmr` crate: the
`tokio_util::codec::Decoder` implementation for `ModeDFrame`, a streaming
decoder of "Mode D" telegrams.

Bytes are modelled as `Nat` (values < 256 in real buffers), buffers as
`List Nat`, Rust `String`s as lists of Unicode code points (`List Nat`).
The mutable `&mut self` / `&mut BytesMut` pair is modelled by returning the
new decoder state and the remaining buffer; a Rust panic is a distinct
outcome constructor.

The `trace` field of `ModeDFrame` is ghost instrumentation: it records the
bytes fed to the CRC digest since the digest was last created.  Every
`self.crc.update(bs)` in the source appends `bs` to `trace`; every
`CRC.digest()` (in `new`, `reset`, and the synchronizer's reset) clears it.
It never influences control flow.
-/

set_option maxRecDepth 40000

namespace DSMR

/-- One step of the bitwise reflected CRC-16/ARC (polynomial 0xA001 reflected). -/
def crcShift (c : Nat) : Nat :=
  if c % 2 = 1 then (c / 2) ^^^ 0xA001 else c / 2

/-- The `Digest::update` step for a single byte of CRC-16/ARC (init 0, refin/refout, xorout 0):
xor the byte into the accumulator and shift eight times. -/
def crcByte (crc b : Nat) : Nat :=
  crcShift (crcShift (crcShift (crcShift (crcShift (crcShift (crcShift (crcShift (crc ^^^ b))))))))

/-- The `Digest::update` fold over a byte slice. `finalize` of CRC-16/ARC is the identity
(xorout = 0), so the accumulator value is also the finalized checksum. -/
def crcUpdate (crc : Nat) (bs : List Nat) : Nat :=
  bs.foldl crcByte crc

/-- Model of `bytes.iter().position(|c| *c == b)`. -/
def findByte (b : Nat) : List Nat → Option Nat
  | [] => none
  | c :: cs => if c = b then some 0 else (findByte b cs).map (fun i => i + 1)

/-- A UTF-8 continuation byte (0x80..=0xBF). -/
def isContByte (b : Nat) : Bool :=
  decide (128 ≤ b ∧ b < 192)

/-- Decode one UTF-8 encoded character from the front of a byte list:
the code point and the number of bytes consumed, `none` if the front is not
a valid character encoding.  This is exactly the validity notion of Rust's
`String::from_utf8` (RFC 3629: no overlongs, no surrogates, max U+10FFFF). -/
def utf8Char : List Nat → Option (Nat × Nat)
  | [] => none
  | b :: bs =>
    if b < 128 then some (b, 1)
    else if b < 194 then none  -- continuation byte or overlong 2-byte lead
    else if b < 224 then       -- 2-byte sequence, lead 0xC2..0xDF
      match bs.head? with
      | some b1 =>
        if isContByte b1 then some ((b - 192) * 64 + (b1 - 128), 2) else none
      | none => none
    else if b < 240 then       -- 3-byte sequence, lead 0xE0..0xEF
      match bs.head?, bs.tail.head? with
      | some b1, some b2 =>
        if (if b = 224 then decide (160 ≤ b1 ∧ b1 < 192)
            else if b = 237 then decide (128 ≤ b1 ∧ b1 < 160)
            else isContByte b1) && isContByte b2 then
          some ((b - 224) * 4096 + (b1 - 128) * 64 + (b2 - 128), 3)
        else none
      | _, _ => none
    else if b < 245 then       -- 4-byte sequence, lead 0xF0..0xF4
      match bs.head?, bs.tail.head?, bs.tail.tail.head? with
      | some b1, some b2, some b3 =>
        if (if b = 240 then decide (144 ≤ b1 ∧ b1 < 192)
            else if b = 244 then decide (128 ≤ b1 ∧ b1 < 144)
            else isContByte b1) && isContByte b2 && isContByte b3 then
          some ((b - 240) * 262144 + (b1 - 128) * 4096 + (b2 - 128) * 64 + (b3 - 128), 4)
        else none
      | _, _, _ => none
    else none

/-- Decode a whole byte list to code points, with explicit fuel; each step
consumes at least one byte, so `fuel ≥ l.length` is enough. -/
def utf8DecodeF : Nat → List Nat → Option (List Nat)
  | _, [] => some []
  | 0, _ :: _ => none
  | fuel + 1, b :: bs =>
    match utf8Char (b :: bs) with
    | none => none
    | some (c, k) => (utf8DecodeF fuel ((b :: bs).drop k)).map (fun cs => c :: cs)

/-- Rust's `String::from_utf8` on a byte list, as the code-point list of the
resulting string (`none` = `Err`). -/
def utf8Decode (l : List Nat) : Option (List Nat) :=
  utf8DecodeF l.length l

/-- Rust `char::is_whitespace` (the Unicode `White_Space` property). -/
def isRustWhitespace (c : Nat) : Bool :=
  decide (c = 9 ∨ c = 10 ∨ c = 11 ∨ c = 12 ∨ c = 13 ∨ c = 32 ∨ c = 133 ∨ c = 160 ∨
    c = 5760 ∨ (8192 ≤ c ∧ c ≤ 8202) ∨ c = 8232 ∨ c = 8233 ∨ c = 8239 ∨ c = 8287 ∨ c = 12288)

/-- Rust `str::trim` on a code-point list. -/
def trimCps (l : List Nat) : List Nat :=
  ((l.dropWhile isRustWhitespace).reverse.dropWhile isRustWhitespace).reverse

/-- Value of one ASCII hex digit, as accepted by `u16::from_str_radix(_, 16)`. -/
def hexDigitVal (b : Nat) : Option Nat :=
  if 48 ≤ b ∧ b ≤ 57 then some (b - 48)
  else if 65 ≤ b ∧ b ≤ 70 then some (b - 55)
  else if 97 ≤ b ∧ b ≤ 102 then some (b - 87)
  else none

/-- Accumulate hex digits with the u16 overflow check of `from_str_radix`. -/
def hexFold : List Nat → Nat → Option Nat
  | [], acc => some acc
  | b :: bs, acc =>
    match hexDigitVal b with
    | none => none
    | some d => if acc * 16 + d > 65535 then none else hexFold bs (acc * 16 + d)

/-- Model of `u16::from_str_radix(s, 16)` on the bytes of `s` (valid-UTF-8 substring):
an optional sign, then at least one hex digit, checked arithmetic.  A `-` sign
succeeds only for value zero (u16 underflow otherwise). -/
def fromStrRadix16 (bs : List Nat) : Option Nat :=
  match bs with
  | [] => none
  | 43 :: rest => if rest = [] then none else hexFold rest 0
  | 45 :: rest =>
    if rest = [] then none
    else match hexFold rest 0 with
         | some 0 => some 0
         | _ => none
  | _ => hexFold bs 0

/-- Rust `str::is_char_boundary` on the underlying byte list. -/
def isCharBoundary (l : List Nat) (i : Nat) : Bool :=
  i = 0 || i = l.length ||
    (match l.get? i with
     | some b => !(isContByte b)
     | none => false)

/-- The byte-slice `&line[1..5]` of a string with byte content `l`:
`none` models the slicing panic (index out of bounds / not a char boundary). -/
def strSlice15 (l : List Nat) : Option (List Nat) :=
  if isCharBoundary l 1 && isCharBoundary l 5 then some ((l.drop 1).take 4) else none

/-- Model of `u16::from_str_radix(&line[1..5], 16)` — `none` is a panic (of the slicing
or of the `.unwrap()`). -/
def trailerParse (l : List Nat) : Option Nat :=
  match strSlice15 l with
  | none => none
  | some s => fromStrRadix16 s

/-- The `Telegram` of the source; `ident` and the `data` entries are Rust `String`s,
modelled as code-point lists. -/
structure Telegram where
  manufacturer : List Nat
  ident : List Nat
  data : List (List Nat)
deriving DecidableEq, Repr

/-- The `FrameState` of the source. -/
inductive FrameState
  | Empty
  | PartialData (t : Telegram)
deriving DecidableEq, Repr

/-- The `ModeDFrame` record: the decoder state plus the CRC digest, with the ghost `trace`
of bytes fed to the digest since it was created. -/
structure ModeDFrame where
  state : FrameState
  crc : Nat
  trace : List Nat
deriving DecidableEq, Repr

/-- Model of `ModeDFrame::new()` (also the result of `reset()`). -/
def ModeDFrame.new : ModeDFrame := ⟨.Empty, 0, []⟩

/-- Result of one `decode` call: the updated decoder and buffer with
`Ok(None)`/`Ok(Some(t))`/`Err(e)`, or a Rust panic. -/
inductive DecodeError
  | malformedHeader                        -- "header too short"
  | invalidEncodingHeader                  -- "identifier not valid UTF-8"
  | invalidEncodingData (idx : Nat)        -- "data line {idx} not valid UTF-8"
  | trailerMisplaced                       -- "Invalid exclamation point detected: ..."
  | checksumMismatch (computed received : Nat)  -- "CRC error! computed: .., received: .."
deriving DecidableEq, Repr

inductive DecodeOutcome
  | ok (s : ModeDFrame) (buf : List Nat) (emitted : Option Telegram)
  | err (s : ModeDFrame) (buf : List Nat) (e : DecodeError)
  | panic
deriving DecidableEq, Repr

/-- The `FrameState::PartialData` arm of `decode` (the inner `loop`),
with explicit fuel for the recursion.  Each iteration consumes at least one
byte, so any `fuel > buf.length` is enough: the fuel-exhaustion branch is
unreachable from `decode`. -/
def decodeDataF : Nat → Nat → List Nat → Telegram → List Nat → DecodeOutcome
  | 0, _, _, _, _ => .panic
  | fuel + 1, crc, trace, t, buf =>
    match findByte 10 buf with
    | none => .ok ⟨.PartialData t, crc, trace⟩ buf none
    | some e =>
      -- let line_bytes = bytes.split_to(end + 1);
      let lineBytes := buf.take (e + 1)
      let rest := buf.drop (e + 1)
      match utf8Decode lineBytes with
      | none => .err ⟨.PartialData t, crc, trace⟩ rest (.invalidEncodingData t.data.length)
      | some cps =>
        if cps.any (fun c => c = 33) then        -- line.contains('!')
          if cps.head? = some 33 then            -- line.starts_with('!')
            let crc2 := crcByte crc 33           -- self.crc.update(&[b'!'])
            let trace2 := trace ++ [33]
            match trailerParse lineBytes with
            | none => .panic                     -- from_str_radix(..).unwrap() / slicing panic
            | some recv =>
              if crc2 ≠ recv then
                .err ⟨.PartialData t, crc2, trace2⟩ rest (.checksumMismatch crc2 recv)
              else
                .ok ModeDFrame.new rest (some t) -- t.clone(); self.reset()
          else
            .err ⟨.PartialData t, crc, trace⟩ rest .trailerMisplaced
        else
          let crc2 := crcUpdate crc lineBytes    -- self.crc.update(&line_bytes)
          let trace2 := trace ++ lineBytes
          decodeDataF fuel crc2 trace2 { t with data := t.data ++ [trimCps cps] } rest

/-- The function `decodeDataF` with enough fuel. -/
def decodeData (crc : Nat) (trace : List Nat) (t : Telegram) (buf : List Nat) : DecodeOutcome :=
  decodeDataF (buf.length + 1) crc trace t buf

/-- Outcome of the `FrameState::Empty` arm of `decode`: either a value returned
to the caller, or the transition to `PartialData` (the outer `loop` then runs
the data arm). -/
inductive EmptyStepOut
  | done (o : DecodeOutcome)
  | next (crc : Nat) (trace : List Nat) (t : Telegram) (buf : List Nat)
deriving DecidableEq, Repr

/-- The `FrameState::Empty` arm of `decode`: synchronize on `/`, then consume
`end + 3` bytes as the header chunk (panicking if the buffer is shorter),
feed them to the CRC, and build the fresh telegram. -/
def emptyStep (crc : Nat) (trace : List Nat) (buf : List Nat) : EmptyStepOut :=
  match findByte 47 buf with
  | none => .done (.ok ⟨.Empty, crc, trace⟩ buf none)
  | some x =>
    let buf1 := buf.drop x                      -- bytes.advance(x)
    let crc1 := if 0 < x then 0 else crc        -- self.crc = CRC.digest() when x > 0
    let trace1 := if 0 < x then [] else trace
    match findByte 10 buf1 with
    | none => .done (.ok ⟨.Empty, crc1, trace1⟩ buf1 none)
    | some e =>
      if buf1.length < e + 3 then .done .panic  -- bytes.split_to(end + 3) out of range
      else
        let line := buf1.take (e + 3)
        let rest := buf1.drop (e + 3)
        let crc2 := crcUpdate crc1 line         -- self.crc.update(&line)
        let trace2 := trace1 ++ line
        if line.length < 6 then
          .done (.err ⟨.Empty, crc2, trace2⟩ rest .malformedHeader)
        else
          match utf8Decode (line.drop 5) with
          | none => .done (.err ⟨.Empty, crc2, trace2⟩ rest .invalidEncodingHeader)
          | some identCps =>
            .next crc2 trace2 ⟨(line.drop 1).take 3, trimCps identCps, []⟩ rest

/-- Model of `<ModeDFrame as Decoder>::decode`. -/
def decode (s : ModeDFrame) (buf : List Nat) : DecodeOutcome :=
  match s.state with
  | .PartialData t => decodeData s.crc s.trace t buf
  | .Empty =>
    match emptyStep s.crc s.trace buf with
    | .done o => o
    | .next crc trace t rest => decodeData crc trace t rest

/-! ### Concrete byte strings used by witnesses and counterexamples -/

/-- The spec example's frame body `"/ABC123\nVAL1\nVAL2\n!"`. -/
def c2Body : List Nat := [47, 65, 66, 67, 49, 50, 51, 10, 86, 65, 76, 49, 10, 86, 65, 76, 50, 10, 33]

/-- The string `"DFE6"`, the hexadecimal digits of `crcUpdate 0 c2Body = 0xDFE6 = 57318`,
the correctly computed CRC-16/ARC of the spec example's frame body. -/
def c2Digits : List Nat := [68, 70, 69, 54]

/-- The spec example input: body, checksum digits, line feed. -/
def c2Input : List Nat := c2Body ++ c2Digits ++ [10]

/-- What the code actually emits for `c2Input`: manufacturer `"ABC"`, but
ident `"23\nVA"` (bytes 5.. of the 10-byte header chunk) and data
`["L1", "VAL2"]` (the first data line lost its first two bytes to the header
chunk). -/
def c2Telegram : Telegram :=
  ⟨[65, 66, 67], [50, 51, 10, 86, 65], [[76, 49], [86, 65, 76, 50]]⟩

/-- The buffer `"/AB\nXYZ\n"`: its header line up to the line feed has 4 bytes, which the
claim says must fail with `MalformedHeader`; the code consumes 6 bytes and
accepts it. -/
def c3Input : List Nat := [47, 65, 66, 10, 88, 89, 90, 10]

/-- The spec example's frame with the wrong trailer digits `"0000"`. -/
def c4Input1 : List Nat := c2Body ++ [48, 48, 48, 48, 10]

/-- The decoder state surfaced together with the `ChecksumMismatch` error for
`c4Input1`: still `PartialData`, CRC accumulator not reset. -/
def c4ErrState : ModeDFrame := ⟨.PartialData c2Telegram, 57318, c2Body⟩

/-- The bytes `"/XYZ12\nAB\n!2FC4\n"` — a well-formed frame: fed to a fresh decoder it
emits a telegram (`0x2FC4` is the CRC-16/ARC the code computes for it). -/
def c4Frame2 : List Nat := [47, 88, 89, 90, 49, 50, 10, 65, 66, 10, 33, 50, 70, 67, 52, 10]

/-- The telegram a fresh decoder emits for `c4Frame2`. -/
def c4Telegram2 : Telegram := ⟨[88, 89, 90], [50, 10, 65, 66], [[]]⟩

/-- The bytes `"/ABC\n\n!E25A\n"`: header line `"/ABC\n"`, one data line `"\n"`, trailer
with the digits of the CRC-16/ARC over `"/ABC\n\n!"` (`0xE25A`), the checksum
the wire format prescribes for this frame. -/
def c5Input : List Nat := [47, 65, 66, 67, 10, 10, 33, 69, 50, 53, 65, 10]

/-- The bytes `"/ABC1\nA\xC3\xA9\n!F992\n"`: a frame whose single data line
holds the two-byte UTF-8 character `é` and whose trailer digits `"F992"` are
the prescribed CRC-16/ARC over `"/ABC1\nA\xC3\xA9\n!"`.  The header step's
`end + 3` consumption truncates the character, so decode fails with the
header `InvalidEncoding` error after feeding only the 8-byte chunk. -/
def c5Utf8Input : List Nat := [47, 65, 66, 67, 49, 10, 65, 195, 169, 10, 33, 70, 57, 57, 50, 10]

/-- The telegram emitted by a decode call, if any. -/
def emittedTelegram : DecodeOutcome → Option Telegram
  | .ok _ _ t => t
  | _ => none

/-- The decoder state carried by a non-panicking outcome. -/
def outcomeState : DecodeOutcome → Option ModeDFrame
  | .ok s _ _ => some s
  | .err s _ _ => some s
  | .panic => none

/-- The ghost CRC trace of the state carried by a non-panicking outcome. -/
def stateTrace (o : DecodeOutcome) : Option (List Nat) :=
  (outcomeState o).map ModeDFrame.trace

/-- Whether the outcome is a `ChecksumMismatch` error. -/
def isChecksumMismatchErr : DecodeOutcome → Bool
  | .err _ _ (.checksumMismatch _ _) => true
  | _ => false

/-- Whether the outcome is a `MalformedHeader` error. -/
def isMalformedHeaderErr : DecodeOutcome → Bool
  | .err _ _ .malformedHeader => true
  | _ => false

/-! ### Helper lemmas -/

theorem findByte_eq_none {b : Nat} : ∀ {l : List Nat}, (∀ a ∈ l, a ≠ b) → findByte b l = none
  | [], _ => rfl
  | c :: cs, h => by
    have hc : c ≠ b := h c (List.mem_cons_self ..)
    have ih := findByte_eq_none (fun a ha => h a (List.mem_cons_of_mem _ ha))
    simp [findByte, hc, ih]

theorem findByte_sentinel {b : Nat} :
    ∀ (l r : List Nat), (∀ a ∈ l, a ≠ b) → findByte b (l ++ b :: r) = some l.length
  | [], r, _ => by simp [findByte]
  | c :: cs, r, h => by
    have hc : c ≠ b := h c (List.mem_cons_self ..)
    have ih := findByte_sentinel cs r (fun a ha => h a (List.mem_cons_of_mem _ ha))
    simp [findByte, hc, ih]

theorem utf8Char_ascii {b : Nat} (hb : b < 128) (bs : List Nat) :
    utf8Char (b :: bs) = some (b, 1) := by
  rw [utf8Char, if_pos hb]

theorem utf8DecodeF_ascii : ∀ (fuel : Nat) (l : List Nat), l.length ≤ fuel →
    (∀ a ∈ l, a < 128) → utf8DecodeF fuel l = some l := by
  intro fuel
  induction fuel with
  | zero =>
    intro l hf _
    cases l with
    | nil => rfl
    | cons b bs => simp at hf
  | succ n ih =>
    intro l hf h
    cases l with
    | nil => rfl
    | cons b bs =>
      have hb : b < 128 := h b (List.mem_cons_self ..)
      have hbs : utf8DecodeF n ((b :: bs).drop 1) = some bs :=
        ih bs (by simp at hf; omega) (fun a ha => h a (List.mem_cons_of_mem _ ha))
      rw [utf8DecodeF, utf8Char_ascii hb]
      simp only [hbs]
      rfl

theorem utf8Decode_ascii {l : List Nat} (h : ∀ a ∈ l, a < 128) : utf8Decode l = some l :=
  utf8DecodeF_ascii l.length l (Nat.le_refl _) h

theorem crcUpdate_append (c : Nat) (l r : List Nat) :
    crcUpdate c (l ++ r) = crcUpdate (crcUpdate c l) r := by
  simp [crcUpdate, List.foldl_append]

theorem findByte_lt_length {b : Nat} : ∀ {l : List Nat} {i : Nat},
    findByte b l = some i → i < l.length
  | [], i, h => by
    rw [findByte] at h
    exact Option.noConfusion h
  | c :: cs, i, h => by
    rw [findByte] at h
    by_cases hc : c = b
    · rw [if_pos hc] at h
      injection h with h1
      subst h1
      simp
    · rw [if_neg hc] at h
      cases hj : findByte b cs with
      | none =>
        rw [hj] at h
        exact Option.noConfusion h
      | some j =>
        rw [hj] at h
        simp at h
        have := findByte_lt_length hj
        simp
        omega

theorem findByte_append_left {b : Nat} : ∀ {l : List Nat} (r : List Nat) {i : Nat},
    findByte b l = some i → findByte b (l ++ r) = some i
  | [], r, i, h => by
    rw [findByte] at h
    exact Option.noConfusion h
  | c :: cs, r, i, h => by
    rw [findByte] at h
    rw [List.cons_append, findByte]
    by_cases hc : c = b
    · rw [if_pos hc] at h ⊢
      exact h
    · rw [if_neg hc] at h ⊢
      cases hj : findByte b cs with
      | none =>
        rw [hj] at h
        exact Option.noConfusion h
      | some j =>
        rw [hj] at h
        rw [findByte_append_left r hj]
        exact h

theorem findByte_isSome_of_mem {b : Nat} : ∀ {l : List Nat}, b ∈ l → (findByte b l).isSome
  | c :: cs, h => by
    rw [findByte]
    by_cases hc : c = b
    · rw [if_pos hc]
      rfl
    · rw [if_neg hc]
      have hb : b ∈ cs := by
        rcases List.mem_cons.mp h with h1 | h2
        · exact absurd h1.symm hc
        · exact h2
      have := findByte_isSome_of_mem hb
      cases hj : findByte b cs with
      | none =>
        rw [hj] at this
        exact absurd this (by simp)
      | some j =>
        rfl

/-- Every hex digit byte is below 128 and is neither a line feed nor the
trailer marker. -/
theorem hexDigit_props {b : Nat} (h : (hexDigitVal b).isSome) :
    b < 128 ∧ b ≠ 10 ∧ b ≠ 33 := by
  unfold hexDigitVal at h
  split at h
  · omega
  · split at h
    · omega
    · split at h
      · omega
      · simp at h

/-- Dropping from a list that ends in a line feed leaves nothing or again a
list that ends in a line feed. -/
theorem ends_lf_drop (k : Nat) (ys : List Nat) :
    (ys ++ [10]).drop k = [] ∨ ∃ zs, (ys ++ [10]).drop k = zs ++ [10] := by
  by_cases hk : k ≤ ys.length
  · exact Or.inr ⟨ys.drop k, List.drop_append_of_le_length hk⟩
  · refine Or.inl (List.drop_eq_nil_of_le ?_)
    simp
    omega

/-- The concatenation of a nonempty list of lines each ending in a line feed
itself ends in a line feed. -/
theorem flatten_ends_lf : ∀ (D : List (List Nat)), D ≠ [] →
    (∀ l ∈ D, ∃ m, l = m ++ [10]) → ∃ zs, D.flatten = zs ++ [10]
  | [], hne, _ => absurd rfl hne
  | [l], _, h => by
    obtain ⟨m, hm⟩ := h l (List.mem_cons_self ..)
    exact ⟨m, by simp [hm]⟩
  | l :: l2 :: D, _, h => by
    obtain ⟨zs, hz⟩ :=
      flatten_ends_lf (l2 :: D) (by simp) (fun x hx => h x (List.mem_cons_of_mem _ hx))
    refine ⟨l ++ zs, ?_⟩
    rw [List.flatten_cons, hz, List.append_assoc]

/-- Every error produced by the data arm carries a `PartialData` state (no
reset), and is never one of the header error kinds. -/
theorem decodeDataF_err_state : ∀ (fuel crc : Nat) (tr : List Nat) (t : Telegram)
    (buf : List Nat) (s' : ModeDFrame) (b' : List Nat) (er : DecodeError),
    decodeDataF fuel crc tr t buf = .err s' b' er →
    (∃ t', s'.state = .PartialData t') ∧
      er ≠ .malformedHeader ∧ er ≠ .invalidEncodingHeader := by
  intro fuel
  induction fuel with
  | zero =>
    intro crc tr t buf s' b' er h
    rw [decodeDataF] at h
    exact DecodeOutcome.noConfusion h
  | succ n ih =>
    intro crc tr t buf s' b' er h
    rw [decodeDataF] at h
    cases hfind : findByte 10 buf with
    | none =>
      rw [hfind] at h
      exact DecodeOutcome.noConfusion h
    | some e =>
      rw [hfind] at h
      dsimp only at h
      cases hu : utf8Decode (List.take (e + 1) buf) with
      | none =>
        rw [hu] at h
        dsimp only at h
        injection h with h1 h2 h3
        subst h1
        subst h3
        exact ⟨⟨t, rfl⟩, by simp, by simp⟩
      | some cps =>
        rw [hu] at h
        dsimp only at h
        by_cases hany : (cps.any fun c => decide (c = 33)) = true
        · rw [if_pos hany] at h
          by_cases hhead : cps.head? = some 33
          · rw [if_pos hhead] at h
            cases hp : trailerParse (List.take (e + 1) buf) with
            | none =>
              rw [hp] at h
              exact DecodeOutcome.noConfusion h
            | some recv =>
              rw [hp] at h
              dsimp only at h
              by_cases hcrc : crcByte crc 33 ≠ recv
              · rw [if_pos hcrc] at h
                injection h with h1 h2 h3
                subst h1
                subst h3
                exact ⟨⟨t, rfl⟩, by simp, by simp⟩
              · rw [if_neg hcrc] at h
                exact DecodeOutcome.noConfusion h
          · rw [if_neg hhead] at h
            injection h with h1 h2 h3
            subst h1
            subst h3
            exact ⟨⟨t, rfl⟩, by simp, by simp⟩
        · rw [if_neg hany] at h
          exact ih _ _ _ _ _ _ _ h

/-- Every error returned from the header arm is `MalformedHeader` or the
header `InvalidEncoding`, and carries an `Empty`-state decoder whose
checksum accumulator has been fed the consumed header chunk (non-empty
trace: not a fresh accumulator). -/
theorem emptyStep_done_err (crc : Nat) (tr : List Nat) (buf : List Nat) (s' : ModeDFrame)
    (b' : List Nat) (er : DecodeError)
    (h : emptyStep crc tr buf = .done (.err s' b' er)) :
    (er = .malformedHeader ∨ er = .invalidEncodingHeader) ∧
      s'.state = FrameState.Empty ∧ s'.trace ≠ [] := by
  rw [emptyStep] at h
  cases h47 : findByte 47 buf with
  | none =>
    rw [h47] at h
    injection h with h1
    exact DecodeOutcome.noConfusion h1
  | some x =>
    rw [h47] at h
    dsimp only at h
    cases hnl : findByte 10 (buf.drop x) with
    | none =>
      rw [hnl] at h
      injection h with h1
      exact DecodeOutcome.noConfusion h1
    | some e =>
      rw [hnl] at h
      dsimp only at h
      by_cases hlen : (buf.drop x).length < e + 3
      · rw [if_pos hlen] at h
        injection h with h1
        exact DecodeOutcome.noConfusion h1
      · rw [if_neg hlen] at h
        have hchunk : (List.take (e + 3) (buf.drop x)).length = e + 3 := by
          rw [List.length_take]
          omega
        by_cases h6 : (List.take (e + 3) (buf.drop x)).length < 6
        · rw [if_pos h6] at h
          injection h with h1
          injection h1 with ha hb hc
          subst ha
          subst hc
          refine ⟨Or.inl rfl, rfl, ?_⟩
          intro hx
          have := congrArg List.length hx
          simp [hchunk] at this
        · rw [if_neg h6] at h
          cases hu : utf8Decode (List.drop 5 (List.take (e + 3) (buf.drop x))) with
          | none =>
            rw [hu] at h
            injection h with h1
            injection h1 with ha hb hc
            subst ha
            subst hc
            refine ⟨Or.inr rfl, rfl, ?_⟩
            intro hx
            have := congrArg List.length hx
            simp [hchunk] at this
          | some ids =>
            rw [hu] at h
            exact EmptyStepOut.noConfusion h

/-- Data-arm run over a clean data section `s` (ASCII, no trailer marker,
ending in a line feed or empty) followed by a trailer line: the accumulator
is fed exactly `s` then the single marker byte, and the comparison is against
the digits' value. -/
theorem dataConsume : ∀ (fuel : Nat), ∀ (s : List Nat) (crc : Nat) (tr : List Nat)
    (t : Telegram) (digits : List Nat) (recv : Nat) (suffix : List Nat),
    (∀ b ∈ s, b < 128 ∧ b ≠ 33) →
    (s = [] ∨ ∃ ys, s = ys ++ [10]) →
    digits.length = 4 →
    (∀ b ∈ digits, (hexDigitVal b).isSome) →
    fromStrRadix16 digits = some recv →
    (s ++ (33 :: digits ++ 10 :: suffix)).length < fuel →
    ∃ t', decodeDataF fuel crc tr t (s ++ (33 :: digits ++ 10 :: suffix)) =
      if crcByte (crcUpdate crc s) 33 = recv
      then .ok ModeDFrame.new suffix (some t')
      else .err ⟨.PartialData t', crcByte (crcUpdate crc s) 33, tr ++ s ++ [33]⟩ suffix
             (.checksumMismatch (crcByte (crcUpdate crc s) 33) recv) := by
  intro fuel
  induction fuel with
  | zero =>
    intro s crc tr t digits recv suffix _ _ _ _ _ hfuel
    omega
  | succ n ih =>
    intro s crc tr t digits recv suffix hbytes hend hdlen hdhex hparse hfuel
    rcases hend with rfl | ⟨ys, hys⟩
    · -- no data bytes left: the next complete line is the trailer line
      obtain ⟨d0, d1, d2, d3, rfl⟩ : ∃ a b c d, digits = [a, b, c, d] := by
        cases digits with
        | nil => simp at hdlen
        | cons a l =>
          cases l with
          | nil => simp at hdlen
          | cons b l2 =>
            cases l2 with
            | nil => simp at hdlen
            | cons c l3 =>
              cases l3 with
              | nil => simp at hdlen
              | cons d l4 =>
                cases l4 with
                | nil => exact ⟨a, b, c, d, rfl⟩
                | cons x l5 => simp at hdlen
      have hd0 := hexDigit_props (hdhex d0 (by simp))
      have hd1 := hexDigit_props (hdhex d1 (by simp))
      have hd2 := hexDigit_props (hdhex d2 (by simp))
      have hd3 := hexDigit_props (hdhex d3 (by simp))
      have hfind : findByte 10 (([] : List Nat) ++ (33 :: [d0, d1, d2, d3] ++ 10 :: suffix)) =
          some 5 := by
        have hmem : ∀ a ∈ [33, d0, d1, d2, d3], a ≠ 10 := by
          intro a ha
          simp at ha
          rcases ha with rfl | rfl | rfl | rfl | rfl
          · omega
          · exact hd0.2.1
          · exact hd1.2.1
          · exact hd2.2.1
          · exact hd3.2.1
        have := findByte_sentinel [33, d0, d1, d2, d3] suffix hmem
        simpa using this
      have hL : ([] : List Nat) ++ (33 :: [d0, d1, d2, d3] ++ 10 :: suffix) =
          (33 :: [d0, d1, d2, d3] ++ [10]) ++ suffix := by simp
      have htake : (([] : List Nat) ++ (33 :: [d0, d1, d2, d3] ++ 10 :: suffix)).take 6 =
          33 :: [d0, d1, d2, d3] ++ [10] := by
        rw [hL]
        exact List.take_left' (by simp)
      have hdrop : (([] : List Nat) ++ (33 :: [d0, d1, d2, d3] ++ 10 :: suffix)).drop 6 =
          suffix := by
        rw [hL]
        exact List.drop_left' (by simp)
      have hascii : utf8Decode (33 :: [d0, d1, d2, d3] ++ [10]) =
          some (33 :: [d0, d1, d2, d3] ++ [10]) := by
        apply utf8Decode_ascii
        intro a ha
        simp at ha
        rcases ha with rfl | rfl | rfl | rfl | rfl | rfl
        · omega
        · exact hd0.1
        · exact hd1.1
        · exact hd2.1
        · exact hd3.1
        · omega
      have hcont0 : isContByte d0 = false := by
        unfold isContByte
        simp
        omega
      have hslice : trailerParse (33 :: [d0, d1, d2, d3] ++ [10]) = some recv := by
        unfold trailerParse strSlice15 isCharBoundary
        simp [hcont0]
        exact hparse
      refine ⟨t, ?_⟩
      rw [decodeDataF, hfind]
      dsimp only
      rw [htake, hdrop, hascii]
      dsimp only
      rw [hslice]
      by_cases hc : crcByte crc 33 = recv
      · simp [crcUpdate, hc]
      · simp [crcUpdate, hc]
    · -- a complete data line is in front: consume it and recurse
      obtain ⟨e, he⟩ : ∃ e, findByte 10 s = some e := by
        have hm : (10 : Nat) ∈ s := by
          rw [hys]
          simp
        have hsome := findByte_isSome_of_mem hm
        cases hfb : findByte 10 s with
        | none =>
          rw [hfb] at hsome
          simp at hsome
        | some e => exact ⟨e, rfl⟩
      have helt : e < s.length := findByte_lt_length he
      have hfind : findByte 10 (s ++ (33 :: digits ++ 10 :: suffix)) = some e :=
        findByte_append_left _ he
      have htake : (s ++ (33 :: digits ++ 10 :: suffix)).take (e + 1) = s.take (e + 1) :=
        List.take_append_of_le_length (by omega)
      have hdrop : (s ++ (33 :: digits ++ 10 :: suffix)).drop (e + 1) =
          s.drop (e + 1) ++ (33 :: digits ++ 10 :: suffix) :=
        List.drop_append_of_le_length (by omega)
      have hascii : utf8Decode (s.take (e + 1)) = some (s.take (e + 1)) :=
        utf8Decode_ascii (fun a ha => (hbytes a (List.mem_of_mem_take ha)).1)
      have hany : ¬ ((s.take (e + 1)).any fun c => decide (c = 33)) = true := by
        intro hcon
        simp only [List.any_eq_true, decide_eq_true_eq] at hcon
        obtain ⟨x, hx, rfl⟩ := hcon
        exact (hbytes 33 (List.mem_of_mem_take hx)).2 rfl
      obtain ⟨t', ih'⟩ := ih (s.drop (e + 1)) (crcUpdate crc (s.take (e + 1)))
        (tr ++ s.take (e + 1)) { t with data := t.data ++ [trimCps (s.take (e + 1))] }
        digits recv suffix
        (fun b hb => hbytes b (List.mem_of_mem_drop hb))
        (by rw [hys]; exact ends_lf_drop _ _)
        hdlen hdhex hparse
        (by
          simp only [List.length_append, List.length_drop, List.length_cons] at hfuel ⊢
          omega)
      refine ⟨t', ?_⟩
      rw [decodeDataF, hfind]
      dsimp only
      rw [htake, hdrop, hascii]
      dsimp only
      rw [if_neg hany]
      rw [ih']
      rw [← crcUpdate_append, List.take_append_drop]
      have htr2 : (tr ++ s.take (e + 1)) ++ s.drop (e + 1) = tr ++ s := by
        rw [List.append_assoc, List.take_append_drop]
      rw [htr2]

/-- The header arm's behaviour once a start marker at offset 0 and a line
feed at index `e` are present and at least `e + 3` bytes are buffered. -/
theorem emptyStep_header (crc : Nat) (tr : List Nat) (buf : List Nat) (e : Nat)
    (hh : buf.head? = some 47) (hf : findByte 10 buf = some e) (hl : e + 3 ≤ buf.length) :
    emptyStep crc tr buf =
      if e + 3 < 6 then
        .done (.err ⟨.Empty, crcUpdate crc (buf.take (e + 3)), tr ++ buf.take (e + 3)⟩
          (buf.drop (e + 3)) .malformedHeader)
      else
        match utf8Decode ((buf.take (e + 3)).drop 5) with
        | none =>
          .done (.err ⟨.Empty, crcUpdate crc (buf.take (e + 3)), tr ++ buf.take (e + 3)⟩
            (buf.drop (e + 3)) .invalidEncodingHeader)
        | some ids =>
          .next (crcUpdate crc (buf.take (e + 3))) (tr ++ buf.take (e + 3))
            ⟨((buf.take (e + 3)).drop 1).take 3, trimCps ids, []⟩ (buf.drop (e + 3)) := by
  obtain ⟨buf', rfl⟩ : ∃ l, buf = 47 :: l := by
    cases buf with
    | nil => simp at hh
    | cons a l =>
      simp at hh
      exact ⟨l, by rw [hh]⟩
  have h47 : findByte 47 (47 :: buf') = some 0 := by simp [findByte]
  have hnl : ¬ (47 :: buf').length < e + 3 := by omega
  simp only [emptyStep, h47, hf, List.drop_zero]
  simp only [if_neg (Nat.lt_irrefl 0)]
  rw [if_neg hnl]
  have hlen : (List.take (e + 3) (47 :: buf')).length = e + 3 := by
    rw [List.length_take]
    omega
  rw [hlen]

/-! ### Claims -/

/-- Claim C8 (confirmed): while the decoder is in the `Empty` state, for every
buffer containing no start-marker byte `'/'` (47), `decode` returns
`Ok(None)` — no bytes consumed, state and checksum unchanged, nothing
emitted, no error — regardless of the other bytes in the buffer. -/
theorem c8_no_marker (s : ModeDFrame) (buf : List Nat)
    (hs : s.state = FrameState.Empty) (hb : ∀ b ∈ buf, b ≠ 47) :
    decode s buf = .ok s buf none := by
  obtain ⟨st, crc, tr⟩ := s
  dsimp at hs
  subst hs
  simp only [decode, emptyStep, findByte_eq_none hb]

/-- Witness for C8: a fresh decoder on the marker-free buffer `"AB\n!C"`. -/
theorem c8_no_marker_witness :
    decode ModeDFrame.new [65, 66, 10, 33, 67] = .ok ModeDFrame.new [65, 66, 10, 33, 67] none :=
  c8_no_marker ModeDFrame.new [65, 66, 10, 33, 67] (by decide) (by decide)

/-- Claim C9 (confirmed): while the decoder is in the `PartialData` state, if
the buffer contains no line-feed byte, `decode` returns `Ok(None)`, consuming
nothing, feeding nothing to the checksum, and leaving the in-progress
telegram unchanged. -/
theorem c9_no_linefeed (s : ModeDFrame) (t : Telegram) (buf : List Nat)
    (hs : s.state = FrameState.PartialData t) (hb : ∀ b ∈ buf, b ≠ 10) :
    decode s buf = .ok s buf none := by
  obtain ⟨st, crc, tr⟩ := s
  dsimp at hs
  subst hs
  simp only [decode, decodeData, decodeDataF, findByte_eq_none hb]

/-- Witness for C9: a partial frame state on the line-feed-free buffer `"VA"`. -/
theorem c9_no_linefeed_witness :
    decode ⟨.PartialData ⟨[65, 66, 67], [49], [[50]]⟩, 99, [1, 2]⟩ [86, 65] =
      .ok ⟨.PartialData ⟨[65, 66, 67], [49], [[50]]⟩, 99, [1, 2]⟩ [86, 65] none :=
  c9_no_linefeed ⟨.PartialData ⟨[65, 66, 67], [49], [[50]]⟩, 99, [1, 2]⟩
    ⟨[65, 66, 67], [49], [[50]]⟩ [86, 65] (by decide) (by decide)

/-- Claim C10 (confirmed): in the `Empty` state with the start marker at
offset 0 and the first line feed at index `e`, if the buffer holds fewer than
`e + 3` bytes (fewer than two bytes after the line feed), `decode` panics
(`BytesMut::split_to(end + 3)` out of range) instead of returning
need-more-input, so `e + 3` buffered bytes are a necessary precondition for
`decode` to return at all. -/
theorem c10_header_panic (s : ModeDFrame) (buf : List Nat) (e : Nat)
    (hs : s.state = FrameState.Empty) (hh : buf.head? = some 47)
    (hf : findByte 10 buf = some e) (hl : buf.length < e + 3) :
    decode s buf = .panic := by
  obtain ⟨st, crc, tr⟩ := s
  dsimp at hs
  subst hs
  obtain ⟨buf', rfl⟩ : ∃ l, buf = 47 :: l := by
    cases buf with
    | nil => simp at hh
    | cons a l =>
      simp at hh
      exact ⟨l, by rw [hh]⟩
  have h47 : findByte 47 (47 :: buf') = some 0 := by simp [findByte]
  have hl' : buf'.length < e + 2 := by simp at hl; omega
  simp [decode, emptyStep, h47, hf, hl']

/-- Witness for C10: the buffer `"/A\n"` (line feed at index 2, no byte after
it) makes a fresh decoder panic. -/
theorem c10_header_panic_witness :
    decode ModeDFrame.new [47, 65, 10] = DecodeOutcome.panic :=
  c10_header_panic ModeDFrame.new [47, 65, 10] 2 (by decide) (by decide) (by decide) (by decide)

/-- Claim C2 counterexample: on the spec example's exact input
(`"/ABC123\nVAL1\nVAL2\n!"` + correct CRC hex `"DFE6"` + `"\n"`), the decoder
does emit a telegram, but with ident `"23\nVA"` (code points
`[50, 51, 10, 86, 65]`) and data `["L1", "VAL2"]`, not the claimed ident
`"123"` and data `["VAL1", "VAL2"]`: the header step consumes two bytes past
the header's line feed. -/
theorem c2_example_counterexample :
    emittedTelegram (decode ModeDFrame.new c2Input) = some c2Telegram ∧
    emittedTelegram (decode ModeDFrame.new c2Input) ≠
      some ⟨[65, 66, 67], [49, 50, 51], [[86, 65, 76, 49], [86, 65, 76, 50]]⟩ := by
  decide

/-- Claim C2 amended: on the spec example's input the decoder emits
`Some(Telegram)` with manufacturer `"ABC"` but ident `"23\nVA"` and data
`["L1", "VAL2"]` (the header step consumes `end + 3` bytes, so two bytes of
the first data line end up in the ident); flipping any one of the four
trailer hex digits to a hex digit of a different value (the parse is
case-insensitive) yields a `ChecksumMismatch` error instead. -/
theorem c2_example_amended :
    decode ModeDFrame.new c2Input = .ok ModeDFrame.new [] (some c2Telegram) ∧
    (∀ i < 4, ∀ d' < 256, hexDigitVal d' ≠ none →
      hexDigitVal d' ≠ hexDigitVal (c2Digits.getD i 0) →
      isChecksumMismatchErr (decode ModeDFrame.new (c2Body ++ c2Digits.set i d' ++ [10])) =
        true) := by
  constructor
  · decide
  · decide

/-- Witness for C2 amended: flipping the first trailer digit `'D'` to `'A'`
produces a checksum-mismatch error. -/
theorem c2_example_amended_witness :
    isChecksumMismatchErr (decode ModeDFrame.new (c2Body ++ c2Digits.set 0 65 ++ [10])) =
      true :=
  c2_example_amended.2 0 (by decide) 65 (by decide) (by decide) (by decide)

/-- Claim C3 counterexample: for the buffer `"/AB\nXYZ\n"` the header line up
to and including the line feed has 4 bytes, so the claim requires a
`MalformedHeader` failure; the code instead consumes the 6-byte chunk
`"/AB\nXY"`, accepts it (manufacturer `['A','B','\n']`, ident `"Y"`), and
returns `Ok(None)` after also consuming the data line `"Z\n"`. -/
theorem c3_header_counterexample :
    isMalformedHeaderErr (decode ModeDFrame.new c3Input) = false ∧
    decode ModeDFrame.new c3Input =
      .ok ⟨.PartialData ⟨[65, 66, 10], [89], [[90]]⟩, 44029, c3Input⟩ [] none := by
  decide

/-- Claim C3 amended: in the `Empty` state with the start marker at offset 0
and the first line feed at index `e` (and at least `e + 3` buffered bytes,
else `decode` panics), the header step consumes exactly `e + 3` bytes — the
header line plus the two bytes after its line feed — feeds exactly those
bytes to the checksum accumulator, fails with `MalformedHeader` iff that
consumed chunk is shorter than 6 bytes (`e + 3 < 6`, i.e. `e < 3`), and on
success sets the manufacturer to bytes 1..4 of the chunk and the ident to
the whitespace-trimmed UTF-8 decode of the chunk's bytes from index 5 onward
(`InvalidEncoding` if they are not valid UTF-8).  The claim's version — with
the consumed line ending at the line feed (`e + 1` bytes) and the length
check and ident taken from that line — is refuted by
`c3_header_counterexample`. -/
theorem c3_header_amended (crc : Nat) (tr : List Nat) (buf : List Nat) (e : Nat)
    (hh : buf.head? = some 47) (hf : findByte 10 buf = some e) (hl : e + 3 ≤ buf.length) :
    emptyStep crc tr buf =
      if e + 3 < 6 then
        .done (.err ⟨.Empty, crcUpdate crc (buf.take (e + 3)), tr ++ buf.take (e + 3)⟩
          (buf.drop (e + 3)) .malformedHeader)
      else
        match utf8Decode ((buf.take (e + 3)).drop 5) with
        | none =>
          .done (.err ⟨.Empty, crcUpdate crc (buf.take (e + 3)), tr ++ buf.take (e + 3)⟩
            (buf.drop (e + 3)) .invalidEncodingHeader)
        | some ids =>
          .next (crcUpdate crc (buf.take (e + 3))) (tr ++ buf.take (e + 3))
            ⟨((buf.take (e + 3)).drop 1).take 3, trimCps ids, []⟩ (buf.drop (e + 3)) :=
  emptyStep_header crc tr buf e hh hf hl

/-- Witness for C3 amended: the header consumption on `c3Input`
(`"/AB\nXYZ\n"`, line feed at index 3): six bytes consumed and accepted. -/
theorem c3_header_amended_witness :
    emptyStep 0 [] c3Input =
      if 3 + 3 < 6 then
        .done (.err ⟨.Empty, crcUpdate 0 (c3Input.take (3 + 3)), [] ++ c3Input.take (3 + 3)⟩
          (c3Input.drop (3 + 3)) .malformedHeader)
      else
        match utf8Decode ((c3Input.take (3 + 3)).drop 5) with
        | none =>
          .done (.err ⟨.Empty, crcUpdate 0 (c3Input.take (3 + 3)), [] ++ c3Input.take (3 + 3)⟩
            (c3Input.drop (3 + 3)) .invalidEncodingHeader)
        | some ids =>
          .next (crcUpdate 0 (c3Input.take (3 + 3))) ([] ++ c3Input.take (3 + 3))
            ⟨((c3Input.take (3 + 3)).drop 1).take 3, trimCps ids, []⟩ (c3Input.drop (3 + 3)) :=
  c3_header_amended 0 [] c3Input 3 (by decide) (by decide) (by decide)

/-- Claim C4 counterexample: the checksum-mismatch error for `c4Input1`
surfaces with the decoder still in `PartialData` with a non-fresh checksum
accumulator (not reset to `Empty`), and feeding the well-formed frame
`c4Frame2` (which a fresh decoder decodes to `c4Telegram2`) to that same
decoder instance does not emit that frame's telegram. -/
theorem c4_error_reset_counterexample :
    decode ModeDFrame.new c4Input1 = .err c4ErrState [] (.checksumMismatch 57318 0) ∧
    c4ErrState.state ≠ FrameState.Empty ∧
    emittedTelegram (decode ModeDFrame.new c4Frame2) = some c4Telegram2 ∧
    emittedTelegram (decode c4ErrState c4Frame2) = none := by
  decide

/-- Claim C4 amended: no error return resets the decoder.  Header-phase
errors (`MalformedHeader`, header `InvalidEncoding`) surface with the state
still `Empty` but with the consumed header chunk left in the checksum
accumulator (non-empty trace, not a fresh accumulator); data-phase errors
(data `InvalidEncoding`, `TrailerMisplaced`, `ChecksumMismatch`) surface
with the state still `PartialData`.  Only successful emission resets, so a
subsequent well-formed frame need not decode correctly
(`c4_error_reset_counterexample`). -/
theorem c4_error_reset_amended (s : ModeDFrame) (buf : List Nat) (s' : ModeDFrame)
    (b' : List Nat) (er : DecodeError) (h : decode s buf = .err s' b' er) :
    (match er with
     | .malformedHeader => s'.state = FrameState.Empty ∧ s'.trace ≠ []
     | .invalidEncodingHeader => s'.state = FrameState.Empty ∧ s'.trace ≠ []
     | _ => ∃ t', s'.state = .PartialData t') := by
  obtain ⟨st, crc, tr⟩ := s
  cases st with
  | PartialData t =>
    simp only [decode, decodeData] at h
    obtain ⟨hPD, hm, hi⟩ := decodeDataF_err_state _ _ _ _ _ _ _ _ h
    cases er with
    | malformedHeader => exact absurd rfl hm
    | invalidEncodingHeader => exact absurd rfl hi
    | invalidEncodingData idx => exact hPD
    | trailerMisplaced => exact hPD
    | checksumMismatch c r => exact hPD
  | Empty =>
    simp only [decode] at h
    cases hes : emptyStep crc tr buf with
    | done o =>
      rw [hes] at h
      dsimp only at h
      subst h
      obtain ⟨hor, hstate, htrace⟩ := emptyStep_done_err crc tr buf s' b' er hes
      rcases hor with rfl | rfl
      · exact ⟨hstate, htrace⟩
      · exact ⟨hstate, htrace⟩
    | next crc2 tr2 t2 rest =>
      rw [hes] at h
      dsimp only at h
      simp only [decodeData] at h
      obtain ⟨hPD, hm, hi⟩ := decodeDataF_err_state _ _ _ _ _ _ _ _ h
      cases er with
      | malformedHeader => exact absurd rfl hm
      | invalidEncodingHeader => exact absurd rfl hi
      | invalidEncodingData idx => exact hPD
      | trailerMisplaced => exact hPD
      | checksumMismatch c r => exact hPD

/-- Witness for C4 amended: the checksum-mismatch error on `c4Input1` leaves
the decoder in a `PartialData` state. -/
theorem c4_error_reset_amended_witness :
    ∃ t', c4ErrState.state = FrameState.PartialData t' :=
  c4_error_reset_amended ModeDFrame.new c4Input1 c4ErrState []
    (.checksumMismatch 57318 0) (by decide)

/-- Claim C5 counterexample, two failure modes.  First, for the well-formed
frame `c5Input` (header `"/ABC\n"`, single data line `"\n"`, trailer
`"!E25A\n"` with the prescribed CRC digits), the claim allows the checksum
to be fed only `"/ABC\n" ++ "\n" ++ "!"`; the code's accumulator trace after
decoding is the entire input — the checksum digits `"E25A"` (bytes
69, 50, 53, 65) and the final line feed were fed as well.  Second, for the
well-formed non-ASCII frame `c5Utf8Input` the header step's `end + 3`
consumption truncates the data line's two-byte character: decode fails with
the header `InvalidEncoding` error having fed only the 8-byte chunk — no
data-line terminator and no trailer-marker byte are ever fed. -/
theorem c5_crc_bytes_counterexample :
    stateTrace (decode ModeDFrame.new c5Input) = some c5Input ∧
    stateTrace (decode ModeDFrame.new c5Input) ≠ some [47, 65, 66, 67, 10, 10, 33] ∧
    decode ModeDFrame.new c5Utf8Input =
      .err ⟨.Empty, crcUpdate 0 (c5Utf8Input.take 8), c5Utf8Input.take 8⟩
        (c5Utf8Input.drop 8) .invalidEncodingHeader := by
  decide

/-- Claim C5 amended: for a frame whose header-line interior and data-line
bytes are ASCII (line feeds only as terminators, no marker byte inside a
data line) and whose data section holds at least two bytes (for example the
customary blank line after the header), the checksum accumulator is fed
exactly the header line, every data line (terminators included), and the
single trailer-marker byte — the digits and everything after them excluded:
at the comparison point the computed value is the CRC over
`header ++ data ++ [33]` and (on the mismatch branch, which exposes the
state) the accumulator trace is exactly `header ++ data ++ [33]`.  Both
restrictions are forced by `c5_crc_bytes_counterexample`: with fewer than
two data-section bytes the header step swallows trailer bytes and the
checksum digits are fed into the accumulator, and with non-ASCII data the
two swallowed bytes can truncate a multi-byte character, so decode fails
with `InvalidEncoding` having fed only the header chunk. -/
theorem c5_crc_bytes_amended (h : List Nat) (D : List (List Nat)) (digits : List Nat)
    (recv : Nat) (suffix : List Nat)
    (hh : ∀ b ∈ h, b < 128 ∧ b ≠ 10)
    (hhlen : 2 ≤ h.length)
    (hD : ∀ l ∈ D, ∃ m, l = m ++ [10] ∧ ∀ b ∈ m, b < 128 ∧ b ≠ 10 ∧ b ≠ 33)
    (hDlen : 2 ≤ D.flatten.length)
    (hdlen : digits.length = 4)
    (hdhex : ∀ b ∈ digits, (hexDigitVal b).isSome)
    (hparse : fromStrRadix16 digits = some recv) :
    ∃ t, decode ModeDFrame.new
        ((47 :: h ++ [10]) ++ (D.flatten ++ (33 :: digits ++ 10 :: suffix))) =
      if crcByte (crcUpdate 0 ((47 :: h ++ [10]) ++ D.flatten)) 33 = recv
      then .ok ModeDFrame.new suffix (some t)
      else .err ⟨.PartialData t, crcByte (crcUpdate 0 ((47 :: h ++ [10]) ++ D.flatten)) 33,
             ((47 :: h ++ [10]) ++ D.flatten) ++ [33]⟩ suffix
             (.checksumMismatch (crcByte (crcUpdate 0 ((47 :: h ++ [10]) ++ D.flatten)) 33)
               recv) := by
  have hhead : ((47 :: h ++ [10]) ++ (D.flatten ++ (33 :: digits ++ 10 :: suffix))).head? =
      some 47 := by
    rw [show (47 :: h ++ [10]) ++ (D.flatten ++ (33 :: digits ++ 10 :: suffix)) =
        47 :: ((h ++ [10]) ++ (D.flatten ++ (33 :: digits ++ 10 :: suffix))) from by simp]
    rfl
  have hmem47 : ∀ a ∈ 47 :: h, a ≠ 10 := by
    intro a ha
    rcases List.mem_cons.mp ha with rfl | hm
    · omega
    · exact (hh a hm).2
  have hfind10 :
      findByte 10 ((47 :: h ++ [10]) ++ (D.flatten ++ (33 :: digits ++ 10 :: suffix))) =
        some (h.length + 1) := by
    rw [show (47 :: h ++ [10]) ++ (D.flatten ++ (33 :: digits ++ 10 :: suffix)) =
        (47 :: h) ++ (10 :: (D.flatten ++ (33 :: digits ++ 10 :: suffix))) from by simp]
    have := findByte_sentinel (47 :: h) (D.flatten ++ (33 :: digits ++ 10 :: suffix)) hmem47
    simpa using this
  have hle : (h.length + 1) + 3 ≤
      ((47 :: h ++ [10]) ++ (D.flatten ++ (33 :: digits ++ 10 :: suffix))).length := by
    simp
    omega
  have hshape : h.length + 1 + 3 = (47 :: h ++ [10]).length + 2 := by simp
  have hchunk : ((47 :: h ++ [10]) ++ (D.flatten ++ (33 :: digits ++ 10 :: suffix))).take
      (h.length + 1 + 3) = (47 :: h ++ [10]) ++ D.flatten.take 2 := by
    rw [hshape, List.take_append, List.take_append_of_le_length hDlen]
  have hrest : ((47 :: h ++ [10]) ++ (D.flatten ++ (33 :: digits ++ 10 :: suffix))).drop
      (h.length + 1 + 3) = D.flatten.drop 2 ++ (33 :: digits ++ 10 :: suffix) := by
    rw [hshape, List.drop_append, List.drop_append_of_le_length hDlen]
  have hflatbytes : ∀ b ∈ D.flatten, b < 128 ∧ b ≠ 33 := by
    intro b hb
    rw [List.mem_flatten] at hb
    obtain ⟨l, hl, hbl⟩ := hb
    obtain ⟨m, rfl, hm⟩ := hD l hl
    rcases List.mem_append.mp hbl with hbm | hb10
    · exact ⟨(hm b hbm).1, (hm b hbm).2.2⟩
    · simp at hb10
      subst hb10
      exact ⟨by omega, by omega⟩
  have hasciiChunk : ∀ a ∈ (47 :: h ++ [10]) ++ D.flatten.take 2, a < 128 := by
    intro a ha
    rcases List.mem_append.mp ha with h1 | h2
    · rcases List.mem_append.mp h1 with h3 | h4
      · rcases List.mem_cons.mp h3 with rfl | h5
        · omega
        · exact (hh a h5).1
      · simp at h4
        omega
    · exact (hflatbytes a (List.mem_of_mem_take h2)).1
  have hu : utf8Decode (((47 :: h ++ [10]) ++ D.flatten.take 2).drop 5) =
      some (((47 :: h ++ [10]) ++ D.flatten.take 2).drop 5) :=
    utf8Decode_ascii (fun a ha => hasciiChunk a (List.mem_of_mem_drop ha))
  have hstep := emptyStep_header 0 [] _ (h.length + 1) hhead hfind10 hle
  rw [if_neg (by omega : ¬ h.length + 1 + 3 < 6)] at hstep
  rw [hchunk, hrest, hu] at hstep
  dsimp only at hstep
  have hDne : D ≠ [] := by
    intro h0
    rw [h0] at hDlen
    simp at hDlen
  obtain ⟨zs, hzs⟩ :=
    flatten_ends_lf D hDne (fun l hl => ⟨(hD l hl).choose, (hD l hl).choose_spec.1⟩)
  obtain ⟨t', hdc⟩ := dataConsume
    ((D.flatten.drop 2 ++ (33 :: digits ++ 10 :: suffix)).length + 1)
    (D.flatten.drop 2)
    (crcUpdate 0 ((47 :: h ++ [10]) ++ D.flatten.take 2))
    ((47 :: h ++ [10]) ++ D.flatten.take 2)
    ⟨(((47 :: h ++ [10]) ++ D.flatten.take 2).drop 1).take 3,
      trimCps (((47 :: h ++ [10]) ++ D.flatten.take 2).drop 5), []⟩
    digits recv suffix
    (fun b hb => hflatbytes b (List.mem_of_mem_drop hb))
    (by rw [hzs]; exact ends_lf_drop 2 zs)
    hdlen hdhex hparse
    (Nat.lt_succ_self _)
  refine ⟨t', ?_⟩
  simp only [decode, ModeDFrame.new]
  rw [hstep]
  dsimp only
  simp only [decodeData, List.nil_append]
  rw [hdc]
  have hbody : ((47 :: h ++ [10]) ++ D.flatten.take 2) ++ D.flatten.drop 2 =
      (47 :: h ++ [10]) ++ D.flatten := by
    rw [List.append_assoc, List.take_append_drop]
  have hcrc : crcUpdate (crcUpdate 0 ((47 :: h ++ [10]) ++ D.flatten.take 2))
      (D.flatten.drop 2) = crcUpdate 0 ((47 :: h ++ [10]) ++ D.flatten) := by
    rw [← crcUpdate_append, hbody]
  have htr : ((47 :: h ++ [10]) ++ D.flatten.take 2) ++ D.flatten.drop 2 ++ [33] =
      ((47 :: h ++ [10]) ++ D.flatten) ++ [33] := by
    rw [hbody]
  rw [hcrc, htr]
  rfl

/-- Witness for C5 amended: the frame `"/AB\n"` + data line `"X\n"` + trailer
`"!0000\n"`; the computed CRC is nonzero, so the mismatch branch surfaces the
accumulator state, whose trace is exactly `"/AB\nX\n!"`. -/
theorem c5_crc_bytes_amended_witness :
    ∃ t, decode ModeDFrame.new
        ((47 :: [65, 66] ++ [10]) ++ ([[88, 10]].flatten ++ (33 :: [48, 48, 48, 48] ++ 10 :: []))) =
      if crcByte (crcUpdate 0 ((47 :: [65, 66] ++ [10]) ++ [[88, 10]].flatten)) 33 = 0
      then .ok ModeDFrame.new [] (some t)
      else .err ⟨.PartialData t,
             crcByte (crcUpdate 0 ((47 :: [65, 66] ++ [10]) ++ [[88, 10]].flatten)) 33,
             ((47 :: [65, 66] ++ [10]) ++ [[88, 10]].flatten) ++ [33]⟩ []
             (.checksumMismatch
               (crcByte (crcUpdate 0 ((47 :: [65, 66] ++ [10]) ++ [[88, 10]].flatten)) 33) 0) :=
  c5_crc_bytes_amended [65, 66] [[88, 10]] [48, 48, 48, 48] 0 []
    (by decide) (by decide)
    (by
      intro l hl
      simp at hl
      subst hl
      exact ⟨[88], rfl, by decide⟩)
    (by decide) (by decide) (by decide) (by decide)

/-- Claim C6 (code bug): the spec example's whole encoding `c2Input` emits a
telegram when fed in one piece, but splitting it after the header's line feed
(the 8-byte prefix `"/ABC123\n"`) makes the first `decode` call panic in
`split_to(end + 3)` instead of returning need-more-input, so feeding the
pieces across invocations cannot emit the same telegram. -/
theorem c6_fragmentation_bug :
    emittedTelegram (decode ModeDFrame.new c2Input) = some c2Telegram ∧
    decode ModeDFrame.new (c2Input.take 8) = DecodeOutcome.panic := by
  decide

end DSMR

